import Mathlib

/-!
Verification of the randr repository against its specification.

Part A embeds the utility functions found under `.claude_bak/scripts/`
(`gh_utils.py`, `workflow/create_issue.py`) as Lean functions over
`List Char` / `String`, staying line-for-line close to the Python source.
Strings are modelled at the code-point level; `str.lower` is modelled on
the ASCII range (code points outside ASCII are left unchanged, which is
faithful for all inputs whose alphanumeric content is ASCII).

Part B models the session telemetry aggregation and report-rendering
pipeline. Its source is not part of the repository snapshot, so every
definition there is modelled from the specification text (sections 3-7
of the spec); each such definition says so in its doc comment.
-/

/-! ### Part A: character and string utilities (gh_utils.py) -/

/-- `[a-z0-9]`: the character class kept by `slugify`'s regex. -/
def isLowerAlnum (c : Char) : Bool :=
  (('a' ≤ c) && (c ≤ 'z')) || (('0' ≤ c) && (c ≤ '9'))

/-- `[A-Z]`. -/
def isUpperAscii (c : Char) : Bool :=
  ('A' ≤ c) && (c ≤ 'Z')

/-- ASCII alphanumeric: `[A-Za-z0-9]`. -/
def isAsciiAlnum (c : Char) : Bool :=
  isUpperAscii c || isLowerAlnum c

/-- Models CPython `str.lower` on the ASCII range: `A`-`Z` map to
`a`-`z`; every other code point is left unchanged. Used for the keyword
containment of `get_priority`, where it coincides with Python on all
inputs: the only non-ASCII code point lowering into a keyword letter is
U+0130, whose trailing combining dot blocks any keyword match. -/
def lowerChar (c : Char) : Char :=
  if isUpperAscii c then Char.ofNat (c.toNat + 32) else c

/-- Models CPython `str.lower` per code point, faithfully for
`slugify`'s output. `A`-`Z` map to `a`-`z`; of the non-ASCII code
points, exactly two lower into ASCII alphanumerics (verified against
CPython over all of Unicode): U+212A KELVIN SIGN lowers to `k`, and
U+0130 LATIN CAPITAL LETTER I WITH DOT ABOVE lowers to `i` followed by
the combining dot U+0307 (the single multi-code-point lowering of
`str.lower`). Every other code point's lowercase contains no ASCII
alphanumeric and is modelled as the code point itself, which the
following collapse step treats identically to its true lowercase. -/
def pyLowerChar (c : Char) : List Char :=
  if isUpperAscii c then [Char.ofNat (c.toNat + 32)]
  else if c = '\u212A' then ['k']
  else if c = '\u0130' then ['i', '\u0307']
  else [c]

/-- Models CPython `str.lower` over a whole string (see `pyLowerChar`). -/
def pyLower (l : List Char) : List Char :=
  l.flatMap pyLowerChar

/-- Models `re.sub(r'[^a-z0-9]+', '-', s)`: each maximal run of
characters outside `[a-z0-9]` is replaced by a single `-`. The Boolean
argument records whether the previous character was inside such a run. -/
def collapseNonAlnum : Bool → List Char → List Char
  | _, [] => []
  | inRun, c :: cs =>
    if isLowerAlnum c then c :: collapseNonAlnum false cs
    else if inRun then collapseNonAlnum true cs
    else '-' :: collapseNonAlnum true cs

/-- Models Python `s.lstrip('-')`. -/
def dropLeadingDash (l : List Char) : List Char :=
  l.dropWhile (fun c => c == '-')

/-- Models Python `s.rstrip('-')`. -/
def dropTrailingDash (l : List Char) : List Char :=
  (l.reverse.dropWhile (fun c => c == '-')).reverse

/-- Models Python `s.strip('-')`. -/
def stripDash (l : List Char) : List Char :=
  dropTrailingDash (dropLeadingDash l)

/-- Embeds `gh_utils.slugify` (gh_utils.py lines 441-448):
lowercase, collapse non-alphanumeric runs to `-`, strip `-`, and if the
result is longer than `maxLen` truncate to `maxLen` and strip trailing
`-` again. The Python default for `max_length` is 40. -/
def slugify (text : String) (maxLen : Nat) : String :=
  let s1 := pyLower text.data
  let s2 := collapseNonAlnum false s1
  let s3 := stripDash s2
  let s4 := if maxLen < s3.length then dropTrailingDash (s3.take maxLen) else s3
  String.mk s4

/-- Characters allowed in a slug: `[a-z0-9-]`. -/
def isSlugChar (c : Char) : Bool :=
  isLowerAlnum c || c == '-'

/-! ### Lemmas about the slug pipeline -/

theorem mem_collapseNonAlnum : ∀ (b : Bool) (l : List Char),
    ∀ c ∈ collapseNonAlnum b l, isSlugChar c = true := by
  intro b l
  induction l generalizing b with
  | nil => intro c hc; simp [collapseNonAlnum] at hc
  | cons x xs ih =>
    intro c hc
    by_cases hx : isLowerAlnum x
    · rw [collapseNonAlnum, if_pos hx] at hc
      rcases List.mem_cons.mp hc with rfl | hc2
      · simp [isSlugChar, hx]
      · exact ih false c hc2
    · rw [collapseNonAlnum, if_neg hx] at hc
      cases b with
      | true =>
        rw [if_pos rfl] at hc
        exact ih true c hc
      | false =>
        rw [if_neg (by simp)] at hc
        rcases List.mem_cons.mp hc with rfl | hc2
        · simp [isSlugChar]
        · exact ih true c hc2

theorem head?_dropWhile_eq (p : Char → Bool) (l : List Char) :
    ∀ c, (l.dropWhile p).head? = some c → p c = false := by
  induction l with
  | nil => intro c h; simp [List.dropWhile] at h
  | cons x xs ih =>
    intro c h
    rw [List.dropWhile_cons] at h
    by_cases hx : p x
    · rw [if_pos hx] at h; exact ih c h
    · rw [if_neg hx] at h
      simp only [List.head?_cons, Option.some.injEq] at h
      subst h
      exact Bool.eq_false_iff.mpr hx

theorem dropWhile_sublist' (p : Char → Bool) (l : List Char) :
    (l.dropWhile p).Sublist l := by
  induction l with
  | nil => simp [List.dropWhile]
  | cons x xs ih =>
    rw [List.dropWhile_cons]
    by_cases hx : p x
    · rw [if_pos hx]; exact ih.cons x
    · rw [if_neg hx]

theorem dropTrailingDash_sublist (l : List Char) : (dropTrailingDash l).Sublist l := by
  have h := (dropWhile_sublist' (fun c => c == '-') l.reverse).reverse
  rwa [List.reverse_reverse] at h

theorem stripDash_sublist (l : List Char) : (stripDash l).Sublist l :=
  (dropTrailingDash_sublist _).trans (dropWhile_sublist' _ l)

theorem getLast?_dropTrailingDash (l : List Char) (c : Char) :
    (dropTrailingDash l).getLast? = some c → (c == '-') = false := by
  intro h
  rw [dropTrailingDash, List.getLast?_reverse] at h
  exact head?_dropWhile_eq _ _ c h

theorem head?_dropTrailingDash (l : List Char) :
    (dropTrailingDash l).head? = none ∨ (dropTrailingDash l).head? = l.head? := by
  rcases List.dropWhile_suffix (l := l.reverse) (fun c => c == '-') with ⟨t, ht⟩
  have hl : l = (List.dropWhile (fun c => c == '-') l.reverse).reverse ++ t.reverse := by
    have := congrArg List.reverse ht
    simpa [List.reverse_append] using this.symm
  rw [dropTrailingDash]
  cases hd : (List.dropWhile (fun c => c == '-') l.reverse).reverse with
  | nil => left; simp
  | cons y ys =>
    right
    conv_rhs => rw [hl, hd]
    simp

theorem head?_take (l : List Char) (n : Nat) :
    (l.take n).head? = none ∨ (l.take n).head? = l.head? := by
  cases l with
  | nil => left; simp
  | cons x xs =>
    cases n with
    | zero => left; simp
    | succ m => right; simp

theorem collapseNonAlnum_allFalse (l : List Char)
    (h : ∀ c ∈ l, isLowerAlnum c = false) : collapseNonAlnum true l = [] := by
  induction l with
  | nil => rfl
  | cons x xs ih =>
    rw [collapseNonAlnum, if_neg (by simp [h x (List.mem_cons_self x xs)]), if_pos rfl]
    exact ih (fun c hc => h c (List.mem_cons_of_mem x hc))

theorem slugify_data (s : String) (n : Nat) :
    (slugify s n).data =
      (if n < (stripDash (collapseNonAlnum false (pyLower s.data))).length
       then dropTrailingDash ((stripDash (collapseNonAlnum false (pyLower s.data))).take n)
       else stripDash (collapseNonAlnum false (pyLower s.data))) := rfl

theorem slugify_length (s : String) (n : Nat) : (slugify s n).length = (slugify s n).data.length := rfl

theorem stripDash_head (l : List Char) (c : Char) :
    (stripDash l).head? = some c → (c == '-') = false := by
  intro hc
  rcases head?_dropTrailingDash (dropLeadingDash l) with h | h
  · rw [stripDash, h] at hc; cases hc
  · rw [stripDash, h] at hc
    exact head?_dropWhile_eq _ _ c hc

/-- C8, amended: with the default `max_length` of 40, `slugify` returns
a string of length at most 40 whose characters are all in `[a-z0-9-]`,
that neither starts nor ends with a hyphen, and that is empty whenever
no character of the input lowercases to an ASCII alphanumeric (the
original empty-output condition, `no ASCII alphanumeric in the input`,
is refuted by `slugify_claim_counterexample`: U+212A lowercases to
`k`). -/
theorem slugify_spec (s : String) :
    (slugify s 40).length ≤ 40 ∧
    (∀ c ∈ (slugify s 40).data, isSlugChar c = true) ∧
    (slugify s 40).data.head? ≠ some '-' ∧
    (slugify s 40).data.getLast? ≠ some '-' ∧
    ((∀ c ∈ s.data, ∀ d ∈ pyLowerChar c, isLowerAlnum d = false) → slugify s 40 = "") := by
  have hdata := slugify_data s 40
  set s3 := stripDash (collapseNonAlnum false (pyLower s.data)) with hs3
  have hsub3 : s3.Sublist (collapseNonAlnum false (pyLower s.data)) := stripDash_sublist _
  refine ⟨?_, ?_, ?_, ?_, ?_⟩
  · rw [slugify_length, hdata]
    by_cases h40 : 40 < s3.length
    · rw [if_pos h40]
      have h1 : (dropTrailingDash (s3.take 40)).length ≤ (s3.take 40).length :=
        (dropTrailingDash_sublist _).length_le
      have h2 : (s3.take 40).length ≤ 40 := by simp
      omega
    · rw [if_neg h40]; omega
  · intro c hc
    rw [hdata] at hc
    have hmem : c ∈ collapseNonAlnum false (pyLower s.data) := by
      by_cases h40 : 40 < s3.length
      · rw [if_pos h40] at hc
        have : c ∈ s3 :=
          ((dropTrailingDash_sublist _).trans (List.take_sublist 40 s3)).subset hc
        exact hsub3.subset this
      · rw [if_neg h40] at hc
        exact hsub3.subset hc
    exact mem_collapseNonAlnum false _ c hmem
  · rw [hdata]
    by_cases h40 : 40 < s3.length
    · rw [if_pos h40]
      intro hcon
      rcases head?_dropTrailingDash (s3.take 40) with h | h
      · rw [h] at hcon; cases hcon
      · rw [h] at hcon
        rcases head?_take s3 40 with h2 | h2
        · rw [h2] at hcon; cases hcon
        · rw [h2] at hcon
          have := stripDash_head _ _ hcon
          simp at this
    · rw [if_neg h40]
      intro hcon
      have := stripDash_head _ _ hcon
      simp at this
  · rw [hdata]
    by_cases h40 : 40 < s3.length
    · rw [if_pos h40]
      intro hcon
      have := getLast?_dropTrailingDash _ _ hcon
      simp at this
    · rw [if_neg h40]
      intro hcon
      have h2 := getLast?_dropTrailingDash (dropLeadingDash (collapseNonAlnum false (pyLower s.data))) '-' hcon
      simp at h2
  · intro hall
    have h1 : ∀ c ∈ pyLower s.data, isLowerAlnum c = false := by
      intro c hc
      rcases List.mem_flatMap.mp hc with ⟨a, ha, hd⟩
      exact hall a ha c hd
    have hs3nil : s3 = [] := by
      rw [hs3]
      cases hm : pyLower s.data with
      | nil => rfl
      | cons x xs =>
        have hx : isLowerAlnum x = false := h1 x (by rw [hm]; exact List.mem_cons_self x xs)
        have hxs : ∀ c ∈ xs, isLowerAlnum c = false := by
          intro c hc; exact h1 c (by rw [hm]; exact List.mem_cons_of_mem x hc)
        rw [collapseNonAlnum, if_neg (by simp [hx]), if_neg (by simp),
          collapseNonAlnum_allFalse xs hxs]
        rfl
    have : (slugify s 40).data = [] := by
      rw [hdata, hs3nil]
      simp
    cases hsl : slugify s 40 with
    | mk d =>
      rw [hsl] at this
      simp at this
      rw [this]

/-- Witness for `slugify_spec` at a concrete input. -/
theorem slugify_spec_witness :
    (slugify "Fix: Crash in the UI!!" 40).length ≤ 40 ∧
    (∀ c ∈ (slugify "Fix: Crash in the UI!!" 40).data, isSlugChar c = true) ∧
    (slugify "Fix: Crash in the UI!!" 40).data.head? ≠ some '-' ∧
    (slugify "Fix: Crash in the UI!!" 40).data.getLast? ≠ some '-' ∧
    ((∀ c ∈ "Fix: Crash in the UI!!".data, ∀ d ∈ pyLowerChar c, isLowerAlnum d = false) →
      slugify "Fix: Crash in the UI!!" 40 = "") :=
  slugify_spec "Fix: Crash in the UI!!"

/-- Counterexample to C8 as originally stated: U+212A KELVIN SIGN is
not an ASCII alphanumeric, yet CPython lowercases it to `k`, so
`slugify` returns `"k"` rather than the empty string for an input with
no ASCII alphanumeric character. -/
theorem slugify_claim_counterexample :
    (∀ c ∈ "\u212A".data, isAsciiAlnum c = false) ∧
    slugify "\u212A" 40 = "k" ∧ slugify "\u212A" 40 ≠ "" :=
  ⟨by decide, by decide, by decide⟩

/-! ### get_priority (gh_utils.py) -/

/-- Models Python `str.lower` over a whole string (ASCII model, see `lowerChar`). -/
def lowerString (s : String) : String :=
  String.mk (s.data.map lowerChar)

/-- Prefix test on character lists. -/
def isPrefixList : List Char → List Char → Bool
  | [], _ => true
  | _ :: _, [] => false
  | a :: as, b :: bs => (a == b) && isPrefixList as bs

/-- Models Python `needle in hay` for strings: substring containment. -/
def isSubList : List Char → List Char → Bool
  | n, [] => n.isEmpty
  | n, c :: t => isPrefixList n (c :: t) || isSubList n t

/-- Embeds `gh_utils.PRIORITY_RANKS` (gh_utils.py lines 310-315), in
dict insertion order. -/
def PRIORITY_RANKS : List (String × Nat) :=
  [("critical", 0), ("high", 1), ("medium", 2), ("low", 3)]

/-- The inner loop of `get_priority`: first table keyword (in table
order) contained in the given lowercased label, with its rank. -/
def keywordMatch (label : List Char) : List (String × Nat) → Option (Nat × String)
  | [] => none
  | (kw, rank) :: rest =>
    if isSubList kw.data label then some (rank, kw) else keywordMatch label rest

/-- The outer loop of `get_priority` over the lowercased labels. -/
def priorityScan : List (List Char) → Nat × String
  | [] => (4, "none")
  | l :: ls =>
    match keywordMatch l PRIORITY_RANKS with
    | some r => r
    | none => priorityScan ls

/-- Embeds `gh_utils.get_priority` (gh_utils.py lines 318-334). -/
def get_priority (labels : List String) : Nat × String :=
  priorityScan (labels.map (fun l => (lowerString l).data))

theorem keywordMatch_eq_none (label : List Char) (tbl : List (String × Nat)) :
    keywordMatch label tbl = none ↔ ∀ kw ∈ tbl, isSubList kw.1.data label = false := by
  induction tbl with
  | nil => simp [keywordMatch]
  | cons e rest ih =>
    obtain ⟨kw, rank⟩ := e
    by_cases h : isSubList kw.data label
    · simp [keywordMatch, h]
    · simp [keywordMatch, h, ih]

theorem keywordMatch_mem (label : List Char) (tbl : List (String × Nat)) (r : Nat) (k : String) :
    keywordMatch label tbl = some (r, k) → (k, r) ∈ tbl ∧ isSubList k.data label = true := by
  induction tbl with
  | nil => intro h; simp [keywordMatch] at h
  | cons e rest ih =>
    obtain ⟨kw, rank⟩ := e
    intro h
    rw [keywordMatch] at h
    by_cases hs : isSubList kw.data label
    · rw [if_pos hs] at h
      have h1 : rank = r ∧ kw = k := by
        have := Option.some.inj h
        exact ⟨congrArg Prod.fst this, congrArg Prod.snd this⟩
      obtain ⟨rfl, rfl⟩ := h1
      exact ⟨List.mem_cons_self _ _, hs⟩
    · rw [if_neg hs] at h
      rcases ih h with ⟨hm, hss⟩
      exact ⟨List.mem_cons_of_mem _ hm, hss⟩

theorem priorityRanks_le : ∀ p ∈ PRIORITY_RANKS, p.2 ≤ 4 := by decide

theorem priorityScan_result (ls : List (List Char)) :
    priorityScan ls = (4, "none") ∨
    (((priorityScan ls).2, (priorityScan ls).1) ∈ PRIORITY_RANKS ∧
      ∃ l ∈ ls, keywordMatch l PRIORITY_RANKS = some (priorityScan ls)) := by
  induction ls with
  | nil => left; rfl
  | cons l ls ih =>
    cases hm : keywordMatch l PRIORITY_RANKS with
    | none =>
      rcases ih with h | ⟨h1, x, hx, h2⟩
      · left; rw [priorityScan, hm]; exact h
      · right
        rw [priorityScan, hm]
        refine ⟨h1, x, List.mem_cons_of_mem _ hx, h2⟩
    | some r =>
      right
      obtain ⟨rank, k⟩ := r
      have hk := keywordMatch_mem _ _ _ _ hm
      rw [priorityScan, hm]
      exact ⟨hk.1, l, List.mem_cons_self _ _, hm⟩

theorem priorityScan_eq_none_iff (ls : List (List Char)) :
    priorityScan ls = (4, "none") ↔ ∀ l ∈ ls, keywordMatch l PRIORITY_RANKS = none := by
  induction ls with
  | nil => simp [priorityScan]
  | cons l ls ih =>
    cases hm : keywordMatch l PRIORITY_RANKS with
    | none => simp [priorityScan, hm, ih]
    | some r =>
      obtain ⟨rank, k⟩ := r
      have hk := keywordMatch_mem _ _ _ _ hm
      have hr : rank ≤ 3 := by
        have := hk.1
        revert this
        have : ∀ p ∈ PRIORITY_RANKS, p.2 ≤ 3 := by decide
        intro hmem
        exact this _ hmem
      constructor
      · intro h
        rw [priorityScan, hm] at h
        have : rank = 4 := congrArg Prod.fst h
        omega
      · intro h
        have := h l (List.mem_cons_self _ _)
        rw [hm] at this
        cases this

theorem priorityScan_append_none (as bs : List (List Char))
    (h : ∀ a ∈ as, keywordMatch a PRIORITY_RANKS = none) :
    priorityScan (as ++ bs) = priorityScan bs := by
  induction as with
  | nil => rfl
  | cons a as ih =>
    rw [List.cons_append, priorityScan, h a (List.mem_cons_self _ _)]
    exact ih (fun x hx => h x (List.mem_cons_of_mem _ hx))

/-- C9: `get_priority` always returns a rank between 0 and 4; it returns
`(4, "none")` exactly when no label contains a priority keyword
case-insensitively; a non-default result is a table entry
(so its rank is `PRIORITY_RANKS` at its name); and the result is
determined by the first label, in list order, containing a keyword. -/
theorem get_priority_spec (labels : List String) :
    (get_priority labels).1 ≤ 4 ∧
    (get_priority labels = (4, "none") ↔
      ∀ l ∈ labels, ∀ kw ∈ PRIORITY_RANKS, isSubList kw.1.data (lowerString l).data = false) ∧
    (get_priority labels ≠ (4, "none") →
      ((get_priority labels).2, (get_priority labels).1) ∈ PRIORITY_RANKS) ∧
    (∀ ls₁ l ls₂, labels = ls₁ ++ l :: ls₂ →
      (∀ l' ∈ ls₁, ∀ kw ∈ PRIORITY_RANKS, isSubList kw.1.data (lowerString l').data = false) →
      (∃ kw ∈ PRIORITY_RANKS, isSubList kw.1.data (lowerString l).data = true) →
      get_priority labels = get_priority [l]) := by
  refine ⟨?_, ?_, ?_, ?_⟩
  · rcases priorityScan_result (labels.map (fun l => (lowerString l).data)) with h | ⟨h1, _⟩
    · rw [get_priority, h]
    · exact priorityRanks_le _ h1
  · rw [get_priority, priorityScan_eq_none_iff]
    constructor
    · intro h l hl kw hkw
      have := h ((lowerString l).data) (List.mem_map_of_mem _ hl)
      exact (keywordMatch_eq_none _ _).mp this kw hkw
    · intro h lc hlc
      rcases List.mem_map.mp hlc with ⟨l, hl, rfl⟩
      exact (keywordMatch_eq_none _ _).mpr (h l hl)
  · intro hne
    rcases priorityScan_result (labels.map (fun l => (lowerString l).data)) with h | ⟨h1, _⟩
    · exact absurd h hne
    · exact h1
  · intro ls₁ l ls₂ heq hnone hmatch
    have hmap : labels.map (fun x => (lowerString x).data) =
        (ls₁.map (fun x => (lowerString x).data)) ++
          ((lowerString l).data :: ls₂.map (fun x => (lowerString x).data)) := by
      rw [heq, List.map_append, List.map_cons]
    have hnone' : ∀ a ∈ ls₁.map (fun x => (lowerString x).data),
        keywordMatch a PRIORITY_RANKS = none := by
      intro a ha
      rcases List.mem_map.mp ha with ⟨x, hx, rfl⟩
      exact (keywordMatch_eq_none _ _).mpr (hnone x hx)
    rw [get_priority, hmap, priorityScan_append_none _ _ hnone']
    cases hm : keywordMatch ((lowerString l).data) PRIORITY_RANKS with
    | none =>
      rcases hmatch with ⟨kw, hkw, hsub⟩
      have := (keywordMatch_eq_none _ _).mp hm kw hkw
      rw [this] at hsub
      cases hsub
    | some r =>
      rw [priorityScan, hm, get_priority, List.map_cons, List.map_nil, priorityScan, hm]

/-- Witness for `get_priority_spec`: the first matching label decides. -/
theorem get_priority_spec_witness :
    (get_priority ["bug", "priority:HIGH"]).1 ≤ 4 ∧
    get_priority ["bug", "priority:HIGH"] = get_priority ["priority:HIGH"] :=
  ⟨(get_priority_spec ["bug", "priority:HIGH"]).1,
   (get_priority_spec ["bug", "priority:HIGH"]).2.2.2 ["bug"] "priority:HIGH" []
     rfl (by decide) (by decide)⟩

/-! ### create_issue.py label building -/

/-- Python truthiness of an optional string argument (`argparse` gives
`None` when the flag is absent; the empty string is also falsy). -/
def strTruthy : Option String → Bool
  | none => false
  | some s => !s.isEmpty

/-- Models `[l.strip() for l in args.labels.split(",") if l.strip()]`,
guarded by `if args.labels:` (create_issue.py lines 76-77). -/
def parseExtraLabels : Option String → List String
  | none => []
  | some s =>
    if s.isEmpty then []
    else ((s.splitOn ",").map String.trim).filter (fun l => !l.isEmpty)

/-- The label list built by `create_issue.main` before deduplication
(create_issue.py lines 68-78): always `"fresh"` first, then the domain
label, then `priority:<level>`, then the extra labels. -/
def rawLabels (domain priority labelsArg : Option String) : List String :=
  ["fresh"]
    ++ (match domain with
        | some d => if d.isEmpty then [] else [d]
        | none => [])
    ++ (match priority with
        | some p => if p.isEmpty then [] else ["priority:" ++ p]
        | none => [])
    ++ parseExtraLabels labelsArg

/-- Models the dedup loop of `create_issue.main` (lines 80-87): keep the
first occurrence of each label, tracked by the `seen` set. -/
def dedupFirst (seen : List String) : List String → List String
  | [] => []
  | l :: ls =>
    if l ∈ seen then dedupFirst seen ls
    else l :: dedupFirst (l :: seen) ls

/-- The final label list of `create_issue.main` (lines 68-87). -/
def buildLabels (domain priority labelsArg : Option String) : List String :=
  dedupFirst [] (rawLabels domain priority labelsArg)

theorem dedupFirst_sublist (seen : List String) (ls : List String) :
    (dedupFirst seen ls).Sublist ls := by
  induction ls generalizing seen with
  | nil => simp [dedupFirst]
  | cons l ls ih =>
    rw [dedupFirst]
    by_cases h : l ∈ seen
    · rw [if_pos h]; exact (ih seen).cons l
    · rw [if_neg h]; exact (ih (l :: seen)).cons₂ l

theorem dedupFirst_not_mem_seen (seen : List String) (ls : List String) :
    ∀ a ∈ dedupFirst seen ls, a ∉ seen := by
  induction ls generalizing seen with
  | nil => intro a ha; simp [dedupFirst] at ha
  | cons l ls ih =>
    intro a ha
    rw [dedupFirst] at ha
    by_cases h : l ∈ seen
    · rw [if_pos h] at ha; exact ih seen a ha
    · rw [if_neg h] at ha
      rcases List.mem_cons.mp ha with rfl | ha2
      · exact h
      · intro hcon
        exact ih (l :: seen) a ha2 (List.mem_cons_of_mem l hcon)

theorem dedupFirst_nodup (seen : List String) (ls : List String) :
    (dedupFirst seen ls).Nodup := by
  induction ls generalizing seen with
  | nil => simp [dedupFirst]
  | cons l ls ih =>
    rw [dedupFirst]
    by_cases h : l ∈ seen
    · rw [if_pos h]; exact ih seen
    · rw [if_neg h]
      refine List.nodup_cons.mpr ⟨?_, ih (l :: seen)⟩
      intro hcon
      exact dedupFirst_not_mem_seen (l :: seen) ls l hcon (List.mem_cons_self l seen)

theorem dedupFirst_mem (seen : List String) (ls : List String) :
    ∀ a ∈ ls, a ∉ seen → a ∈ dedupFirst seen ls := by
  induction ls generalizing seen with
  | nil => intro a ha; simp at ha
  | cons l ls ih =>
    intro a ha hs
    rw [dedupFirst]
    by_cases h : l ∈ seen
    · rw [if_pos h]
      rcases List.mem_cons.mp ha with rfl | ha2
      · exact absurd h hs
      · exact ih seen a ha2 hs
    · rw [if_neg h]
      rcases List.mem_cons.mp ha with rfl | ha2
      · exact List.mem_cons_self _ _
      · by_cases hal : a = l
        · subst hal; exact List.mem_cons_self _ _
        · refine List.mem_cons_of_mem _ (ih (l :: seen) a ha2 ?_)
          intro hcon
          rcases List.mem_cons.mp hcon with h1 | h2
          · exact hal h1
          · exact hs h2

theorem dedupFirst_pairwise_indexOf (l seen : List String) :
    List.Pairwise (fun x y => l.indexOf x < l.indexOf y) (dedupFirst seen l) := by
  induction l generalizing seen with
  | nil => exact List.Pairwise.nil
  | cons a ls ih =>
    rw [dedupFirst]
    by_cases h : a ∈ seen
    · rw [if_pos h]
      refine List.Pairwise.imp_of_mem ?_ (ih seen)
      intro x y hx hy hlt
      have hxa : a ≠ x := fun he => dedupFirst_not_mem_seen seen ls x hx (he ▸ h)
      have hya : a ≠ y := fun he => dedupFirst_not_mem_seen seen ls y hy (he ▸ h)
      rw [List.indexOf_cons_ne ls hxa, List.indexOf_cons_ne ls hya]
      omega
    · rw [if_neg h]
      refine List.Pairwise.cons ?_ ?_
      · intro y hy
        have hya : a ≠ y := fun he =>
          dedupFirst_not_mem_seen (a :: seen) ls y hy (he ▸ List.mem_cons_self a seen)
        rw [List.indexOf_cons_self, List.indexOf_cons_ne ls hya]
        omega
      · refine List.Pairwise.imp_of_mem ?_ (ih (a :: seen))
        intro x y hx hy hlt
        have hxa : a ≠ x := fun he =>
          dedupFirst_not_mem_seen (a :: seen) ls x hx (he ▸ List.mem_cons_self a seen)
        have hya : a ≠ y := fun he =>
          dedupFirst_not_mem_seen (a :: seen) ls y hy (he ▸ List.mem_cons_self a seen)
        rw [List.indexOf_cons_ne ls hxa, List.indexOf_cons_ne ls hya]
        omega

/-- C10: for every combination of the `--domain`, `--priority` and
`--labels` arguments, the label list built by `create_issue.main` starts
with `"fresh"`, has no duplicates, contains every requested label, and
preserves the first-occurrence order of the requested labels: it is a
sublist of the raw requested list whose entries are strictly increasing
in their first-occurrence position (`indexOf`) in that raw list — which,
together with completeness and distinctness, determines the built list
uniquely as the first-occurrence dedup of the requested labels. -/
theorem buildLabels_spec (domain priority labelsArg : Option String) :
    (buildLabels domain priority labelsArg).head? = some "fresh" ∧
    (buildLabels domain priority labelsArg).Nodup ∧
    (buildLabels domain priority labelsArg).Sublist (rawLabels domain priority labelsArg) ∧
    (∀ x ∈ rawLabels domain priority labelsArg, x ∈ buildLabels domain priority labelsArg) ∧
    List.Pairwise
      (fun x y => (rawLabels domain priority labelsArg).indexOf x <
        (rawLabels domain priority labelsArg).indexOf y)
      (buildLabels domain priority labelsArg) := by
  refine ⟨?_, dedupFirst_nodup _ _, dedupFirst_sublist _ _, ?_, dedupFirst_pairwise_indexOf _ _⟩
  · have hraw : rawLabels domain priority labelsArg =
        "fresh" :: (rawLabels domain priority labelsArg).tail := rfl
    rw [buildLabels, hraw, dedupFirst, if_neg (List.not_mem_nil "fresh")]
    rfl
  · intro x hx
    exact dedupFirst_mem [] _ x hx (List.not_mem_nil x)

/-! ### Part B: the session telemetry pipeline, modelled from the spec -/

/-- Modelled from the spec: the `TokenUsage` data model (spec section 3)
of the aggregation pipeline, whose source is absent from the snapshot.
Four unsigned counters plus a derived total. -/
structure TokenUsage where
  input : Nat
  output : Nat
  cache_read : Nat
  cache_creation : Nat
  total : Nat
deriving Repr, DecidableEq

/-- Modelled from the spec: `TokenUsage` construction, with the total
derived as the sum of the four counters. -/
def mkTokenUsage (i o cr cc : Nat) : TokenUsage :=
  ⟨i, o, cr, cc, i + o + cr + cc⟩

/-- Modelled from the spec: one pricing tier of the Cost Model (spec
section 4.5): four per-million-token unit prices. -/
structure PriceTier where
  input : ℚ
  output : ℚ
  cache_read : ℚ
  cache_creation : ℚ
deriving Repr, DecidableEq

/-- Modelled from the spec: the Cost Model's fixed table mapping
model-name substrings to tiers, with a default tier for unmatched
names. The concrete prices are not fixed by the spec, so the table is a
parameter. -/
structure PricingTable where
  entries : List (String × PriceTier)
  defaultTier : PriceTier
deriving Repr, DecidableEq

/-- Modelled from the spec: the substring lookup of the Cost Model —
the first table key that appears as a substring of the model name wins. -/
def findTier (model : String) : List (String × PriceTier) → Option PriceTier
  | [] => none
  | (k, t) :: rest =>
    if isSubList k.data model.data then some t else findTier model rest

/-- Modelled from the spec: tier resolution with fallback to the
default tier for an unmatched model name. -/
def resolveTier (tbl : PricingTable) (model : String) : PriceTier :=
  (findTier model tbl.entries).getD tbl.defaultTier

/-- Rounding to 4 decimal places, used by the Cost Model. -/
def round4 (q : ℚ) : ℚ :=
  ((round (q * 10000) : ℤ) : ℚ) / 10000

/-- Modelled from the spec: the Cost Model (spec section 4.5).
Cost = Σ(category_count × category_price) / 1,000,000, rounded to 4
decimal places, with the tier resolved from the model name. -/
def computeCost (tbl : PricingTable) (model : String) (u : TokenUsage) : ℚ :=
  let t := resolveTier tbl model
  round4 (((u.input : ℚ) * t.input + (u.output : ℚ) * t.output +
    (u.cache_read : ℚ) * t.cache_read + (u.cache_creation : ℚ) * t.cache_creation) / 1000000)

/-- C1: the derived total is the sum of the four counters, and the cost
is `round((i*pI + o*pO + cr*pR + cc*pC)/1e6, 4)` for the tier matched
by the model name. -/
theorem tokenUsage_cost_spec (i o cr cc : Nat) (tbl : PricingTable) (model : String) :
    (mkTokenUsage i o cr cc).total = i + o + cr + cc ∧
    computeCost tbl model (mkTokenUsage i o cr cc) =
      round4 (((i : ℚ) * (resolveTier tbl model).input +
        (o : ℚ) * (resolveTier tbl model).output +
        (cr : ℚ) * (resolveTier tbl model).cache_read +
        (cc : ℚ) * (resolveTier tbl model).cache_creation) / 1000000) :=
  ⟨rfl, rfl⟩

theorem findTier_eq_none (model : String) (es : List (String × PriceTier)) :
    findTier model es = none ↔ ∀ e ∈ es, isSubList e.1.data model.data = false := by
  induction es with
  | nil => simp [findTier]
  | cons e rest ih =>
    obtain ⟨k, t⟩ := e
    by_cases h : isSubList k.data model.data
    · simp [findTier, h]
    · simp [findTier, h, ih]

theorem findTier_append_first (model : String) (es₁ : List (String × PriceTier))
    (k : String) (t : PriceTier) (es₂ : List (String × PriceTier))
    (h₁ : ∀ e ∈ es₁, isSubList e.1.data model.data = false)
    (h₂ : isSubList k.data model.data = true) :
    findTier model (es₁ ++ (k, t) :: es₂) = some t := by
  induction es₁ with
  | nil => rw [List.nil_append, findTier, if_pos h₂]
  | cons e rest ih =>
    obtain ⟨k', t'⟩ := e
    rw [List.cons_append, findTier,
      if_neg (by simp [h₁ (k', t') (List.mem_cons_self _ _)])]
    exact ih (fun x hx => h₁ x (List.mem_cons_of_mem _ hx))

/-- C5: an unmatched model name resolves to the default tier and the
cost is computed from the default tier (total function, no error); a
matched name resolves to the tier of the first matching table key. -/
theorem resolveTier_spec (tbl : PricingTable) (model : String) (u : TokenUsage) :
    ((∀ e ∈ tbl.entries, isSubList e.1.data model.data = false) →
      resolveTier tbl model = tbl.defaultTier ∧
      computeCost tbl model u =
        round4 (((u.input : ℚ) * tbl.defaultTier.input +
          (u.output : ℚ) * tbl.defaultTier.output +
          (u.cache_read : ℚ) * tbl.defaultTier.cache_read +
          (u.cache_creation : ℚ) * tbl.defaultTier.cache_creation) / 1000000)) ∧
    (∀ es₁ k t es₂, tbl.entries = es₁ ++ (k, t) :: es₂ →
      (∀ e ∈ es₁, isSubList e.1.data model.data = false) →
      isSubList k.data model.data = true →
      resolveTier tbl model = t) := by
  constructor
  · intro hall
    have hres : resolveTier tbl model = tbl.defaultTier := by
      rw [resolveTier, (findTier_eq_none model tbl.entries).mpr hall]
      rfl
    refine ⟨hres, ?_⟩
    rw [computeCost, hres]
  · intro es₁ k t es₂ heq h₁ h₂
    rw [resolveTier, heq, findTier_append_first model es₁ k t es₂ h₁ h₂]
    rfl

/-- Witness for `resolveTier_spec`: a one-entry table; an unknown name
falls back to the default tier, a versioned name matches the family
entry. -/
theorem resolveTier_spec_witness :
    resolveTier ⟨[("model-a", ⟨5, 25, 1/2, 1⟩)], ⟨3, 15, 1/3, 2⟩⟩ "other-model" =
      (⟨3, 15, 1/3, 2⟩ : PriceTier) ∧
    resolveTier ⟨[("model-a", ⟨5, 25, 1/2, 1⟩)], ⟨3, 15, 1/3, 2⟩⟩ "model-a-v2" =
      (⟨5, 25, 1/2, 1⟩ : PriceTier) :=
  ⟨((resolveTier_spec ⟨[("model-a", ⟨5, 25, 1/2, 1⟩)], ⟨3, 15, 1/3, 2⟩⟩ "other-model"
      (mkTokenUsage 0 0 0 0)).1 (by decide)).1,
   (resolveTier_spec ⟨[("model-a", ⟨5, 25, 1/2, 1⟩)], ⟨3, 15, 1/3, 2⟩⟩ "model-a-v2"
      (mkTokenUsage 0 0 0 0)).2 [] "model-a" ⟨5, 25, 1/2, 1⟩ [] rfl (by decide) (by decide)⟩

/-! ### Session Log Reader (spec section 4.1), modelled from the spec -/

/-- Modelled from the spec: one parsed session-log record (spec
sections 4.1 and 6). Every field is optional, mirroring the JSON
records: timestamp, `type` discriminator, nested message model name and
usage counts (missing usage fields already defaulted to zero), tool
invocations found in content blocks (an absent name is `none`), and the
tool-result duration side channel. -/
structure LogRecord where
  timestamp : Option String
  recType : Option String
  model : Option String
  usage : Option (Nat × Nat × Nat × Nat)
  toolUses : List (Option String)
  toolResultDuration : Option Nat
deriving Repr, DecidableEq

/-- Modelled from the spec: the running summary accumulated by the
Session Log Reader. -/
structure SessionSummary where
  timestamps : List String
  userMessages : Nat
  assistantMessages : Nat
  inputTokens : Nat
  outputTokens : Nat
  cacheReadTokens : Nat
  cacheCreationTokens : Nat
  toolCounts : List (String × Nat)
  toolDurations : List Nat
  models : List String
deriving Repr, DecidableEq

/-- The empty session summary (the well-defined empty result for a
missing session log). -/
def emptySession : SessionSummary :=
  ⟨[], 0, 0, 0, 0, 0, 0, [], [], []⟩

/-- Modelled from the spec: increment the per-tool-name counter
(keys unique). -/
def bumpCount (name : String) : List (String × Nat) → List (String × Nat)
  | [] => [(name, 1)]
  | (k, n) :: rest =>
    if k == name then (k, n + 1) :: rest else (k, n) :: bumpCount name rest

/-- Modelled from the spec: processing of a single parsed record (spec
section 4.1): append any timestamp, classify user/assistant, collect
the model name, add the four usage fields, bump per-tool counters
(missing tool name bucketed as `"unknown"`), and append any tool-result
duration. -/
def processRecord (st : SessionSummary) (r : LogRecord) : SessionSummary :=
  let st1 :=
    match r.timestamp with
    | some ts => { st with timestamps := st.timestamps ++ [ts] }
    | none => st
  let st2 :=
    if r.recType = some "user" then { st1 with userMessages := st1.userMessages + 1 }
    else if r.recType = some "assistant" then
      { st1 with assistantMessages := st1.assistantMessages + 1 }
    else st1
  let st3 :=
    match r.model with
    | some m => { st2 with models := st2.models ++ [m] }
    | none => st2
  let st4 :=
    match r.usage with
    | some (i, o, cr, cc) =>
      { st3 with inputTokens := st3.inputTokens + i, outputTokens := st3.outputTokens + o,
                 cacheReadTokens := st3.cacheReadTokens + cr,
                 cacheCreationTokens := st3.cacheCreationTokens + cc }
    | none => st3
  let st5 :=
    { st4 with toolCounts :=
        r.toolUses.foldl (fun tc n => bumpCount (n.getD "unknown") tc) st4.toolCounts }
  match r.toolResultDuration with
  | some d => { st5 with toolDurations := st5.toolDurations ++ [d] }
  | none => st5

/-- Modelled from the spec: the line stream of the Session Log Reader.
A line is `none` when it fails to parse as JSON (spec section 4.1:
such a line is silently skipped), `some r` when it parses to `r`. -/
def readSessionLines (lines : List (Option LogRecord)) : SessionSummary :=
  lines.foldl
    (fun st line =>
      match line with
      | none => st
      | some r => processRecord st r)
    emptySession

theorem readSessionLines_foldl (st : SessionSummary) (lines : List (Option LogRecord)) :
    lines.foldl
      (fun st line => match line with | none => st | some r => processRecord st r) st =
      lines.reduceOption.foldl processRecord st := by
  induction lines generalizing st with
  | nil => rfl
  | cons x xs ih =>
    cases x with
    | none => rw [List.foldl_cons]; exact ih st
    | some r =>
      rw [List.foldl_cons, List.reduceOption_cons_of_some, List.foldl_cons]
      exact ih (processRecord st r)

theorem reduceOption_map_some (l : List LogRecord) :
    (l.map some).reduceOption = l := by
  induction l with
  | nil => rfl
  | cons x xs ih => rw [List.map_cons, List.reduceOption_cons_of_some, ih]

/-- C4: malformed JSON lines are skipped without effect — reading any
line stream gives exactly the summary of its successfully parsed lines,
so interspersed malformed lines leave token totals and message counts
(and every other summary field) unchanged. -/
theorem readSessionLines_skips_malformed (lines : List (Option LogRecord)) :
    readSessionLines lines = readSessionLines (lines.reduceOption.map some) := by
  rw [readSessionLines, readSessionLines, readSessionLines_foldl,
    readSessionLines_foldl, reduceOption_map_some]

/-! ### Debug Log Reader and File-Activity Lister (spec sections 4.2 and 4.3) -/

/-- Modelled from the spec: a SlowOperation record (spec section 3). -/
structure SlowOperation where
  operation : String
  durationMs : Nat
  timestamp : String
deriving Repr, DecidableEq

/-- Modelled from the spec: an ErrorRecord (spec section 3). -/
structure ErrorRecord where
  message : String
  timestamp : String
deriving Repr, DecidableEq

/-- Modelled from the spec: one debug-log line after the three
regular-expression patterns of the Debug Log Reader have been applied
(first match wins); the patterns themselves are not in the snapshot, so
lines are represented pre-classified. -/
inductive DebugLine where
  | slowOp (timestamp operation : String) (durationMs : Nat)
  | errorLine (timestamp message : String)
  | toolTiming (timestamp tool : String) (durationMs : Nat)
  | otherLine (text : String)
deriving Repr, DecidableEq

/-- Modelled from the spec: the Debug Log Reader's result. -/
structure DebugSummary where
  slowOps : List SlowOperation
  errors : List ErrorRecord
  toolTimings : List Nat
deriving Repr, DecidableEq

/-- The all-empty result for a missing debug log. -/
def emptyDebug : DebugSummary := ⟨[], [], []⟩

/-- Modelled from the spec: per-line accumulation of the Debug Log Reader. -/
def processDebugLine (st : DebugSummary) : DebugLine → DebugSummary
  | .slowOp ts op d => { st with slowOps := st.slowOps ++ [⟨op, d, ts⟩] }
  | .errorLine ts msg => { st with errors := st.errors ++ [⟨msg, ts⟩] }
  | .toolTiming _ _ d => { st with toolTimings := st.toolTimings ++ [d] }
  | .otherLine _ => st

/-- Modelled from the spec: the Debug Log Reader's line stream. -/
def readDebugLines (lines : List DebugLine) : DebugSummary :=
  lines.foldl processDebugLine emptyDebug

/-- Modelled from the spec: integer-truncated mean of the captured
tool-timing samples, 0 if none (spec section 4.2). -/
def debugAverage (d : DebugSummary) : Nat :=
  if d.toolTimings.isEmpty then 0 else d.toolTimings.sum / d.toolTimings.length

/-- Modelled from the spec: the Session Log Reader degrades to the
empty summary when the log file is missing (spec section 4.1). -/
def readSessionLog : Option (List (Option LogRecord)) → SessionSummary
  | none => emptySession
  | some lines => readSessionLines lines

/-- Modelled from the spec: the Debug Log Reader degrades to the
all-empty result when no debug log exists (spec section 4.2). -/
def readDebugLog : Option (List DebugLine) → DebugSummary
  | none => emptyDebug
  | some lines => readDebugLines lines

/-- Modelled from the spec: the File-Activity Lister (spec section 4.3)
returns the file names of the per-session history directory, or the
empty list when the directory does not exist. -/
def listSessionFiles : Option (List String) → List String
  | none => []
  | some fs => fs

/-! ### Timestamp handling and the Aggregator (spec section 4.4) -/

/-- Decimal digit value. -/
def digitVal (c : Char) : Option Nat :=
  if (('0' ≤ c) && (c ≤ '9')) then some (c.toNat - 48) else none

def parseDigitsAux : List Char → Nat → Option Nat
  | [], acc => some acc
  | c :: cs, acc =>
    match digitVal c with
    | some d => parseDigitsAux cs (acc * 10 + d)
    | none => none

/-- A non-empty all-digit character list as a number. -/
def parseNatAll (l : List Char) : Option Nat :=
  if l.isEmpty then none else parseDigitsAux l 0

/-- Days since 1970-01-01 of a civil date (proleptic Gregorian). -/
def daysFromCivil (y : Int) (m d : Nat) : Int :=
  let y2 : Int := if m ≤ 2 then y - 1 else y
  let era : Int := (if 0 ≤ y2 then y2 else y2 - 399) / 400
  let yoe : Int := y2 - era * 400
  let mp : Nat := (m + 9) % 12
  let doy : Int := ((153 * mp + 2) / 5 : Nat) + d - 1
  let doe : Int := yoe * 365 + yoe / 4 - yoe / 100 + doy
  era * 146097 + doe - 719468

def expectChar (c : Char) : List Char → Option (List Char)
  | x :: rest => if x == c then some rest else none
  | [] => none

/-- Read exactly `n` digits from the front. -/
def takeNum (n : Nat) (l : List Char) : Option (Nat × List Char) :=
  let pre := l.take n
  if pre.length = n then
    match parseNatAll pre with
    | some v => some (v, l.drop n)
    | none => none
  else none

/-- Fractional-second part as milliseconds (first three digits,
zero-padded), with the rest of the input. -/
def parseFracMs (l : List Char) : Nat × List Char :=
  match l with
  | '.' :: rest =>
    let ds := rest.takeWhile (fun c => ('0' ≤ c) && (c ≤ '9'))
    let rest2 := rest.dropWhile (fun c => ('0' ≤ c) && (c ≤ '9'))
    ((parseDigitsAux ((ds ++ ['0', '0', '0']).take 3) 0).getD 0, rest2)
  | _ => (0, l)

/-- UTC offset in minutes: empty (assumed UTC), `Z`, or `±HH:MM`. -/
def parseOffsetMin : List Char → Option Int
  | [] => some 0
  | ['Z'] => some 0
  | '+' :: rest => do
    let (h, r1) ← takeNum 2 rest
    let r2 ← expectChar ':' r1
    let (m, r3) ← takeNum 2 r2
    if r3.isEmpty then some ((h : Int) * 60 + m) else none
  | '-' :: rest => do
    let (h, r1) ← takeNum 2 rest
    let r2 ← expectChar ':' r1
    let (m, r3) ← takeNum 2 r2
    if r3.isEmpty then some (-((h : Int) * 60 + m)) else none
  | _ => none

/-- Modelled from the spec: ISO-8601 parsing
(`YYYY-MM-DDTHH:MM:SS[.fff][Z|±HH:MM]`) to epoch milliseconds, with an
assumed UTC offset when none is present (spec section 4.4). -/
def parseIso (l : List Char) : Option Int := do
  let (y, r1) ← takeNum 4 l
  let r2 ← expectChar '-' r1
  let (mo, r3) ← takeNum 2 r2
  let r4 ← expectChar '-' r3
  let (d, r5) ← takeNum 2 r4
  let r6 ← expectChar 'T' r5
  let (h, r7) ← takeNum 2 r6
  let r8 ← expectChar ':' r7
  let (mi, r9) ← takeNum 2 r8
  let r10 ← expectChar ':' r9
  let (se, r11) ← takeNum 2 r10
  let (ms, r12) := parseFracMs r11
  let off ← parseOffsetMin r12
  some ((daysFromCivil (y : Int) mo d * 86400 +
    (h : Int) * 3600 + (mi : Int) * 60 + (se : Int)) * 1000 + (ms : Int) - off * 60000)

/-- Modelled from the spec: timestamp format auto-detection (spec
section 4.4): numeric input is epoch milliseconds, non-numeric input is
ISO-8601; `none` on failure. -/
def parseTimestamp (s : String) : Option Int :=
  match parseNatAll s.data with
  | some n => some (n : Int)
  | none => parseIso s.data

/-- Rounding to 2 decimal places, used for the duration in minutes. -/
def round2 (q : ℚ) : ℚ :=
  ((round (q * 100) : ℤ) : ℚ) / 100

/-- Modelled from the spec: `(last − first)` in minutes rounded to two
decimals; failure to parse either bound (or a missing bound) yields 0
(spec section 4.4). -/
def durationMinutes (startB endB : Option String) : ℚ :=
  match startB, endB with
  | some a, some b =>
    match parseTimestamp a, parseTimestamp b with
    | some x, some y => round2 (((y - x : ℤ) : ℚ) / 60000)
    | _, _ => 0
  | _, _ => 0

/-- Modelled from the spec: whole hours / minutes / seconds, omitting
zero-valued higher units, always showing at least seconds
(spec section 4.4). -/
def formatDuration (mins : ℚ) : String :=
  let totalSeconds : Nat := (round (mins * 60)).toNat
  let h := totalSeconds / 3600
  let m := totalSeconds % 3600 / 60
  let s := totalSeconds % 60
  if 0 < h then toString h ++ "h " ++ toString m ++ "m " ++ toString s ++ "s"
  else if 0 < m then toString m ++ "m " ++ toString s ++ "s"
  else toString s ++ "s"

/-- Occurrence count of a string in a list. -/
def countOccur (x : String) (l : List String) : Nat :=
  (l.filter (fun y => y == x)).length

/-- Modelled from the spec: the most frequently observed model name,
ties broken by first-encountered order (spec section 4.1). -/
def pickPrimary (models : List String) : Option String :=
  match dedupFirst [] models with
  | [] => none
  | m :: ms =>
    some (ms.foldl (fun best x =>
      if countOccur best models < countOccur x models then x else best) m)

/-- Timestamps sorted lexicographically (ISO-8601 order). -/
def sortStrings (l : List String) : List String :=
  l.insertionSort (· ≤ ·)

/-- Modelled from the spec: the average-tool-response fallback chain
(spec section 4.4): the Debug Log Reader's average when it has samples,
else the truncated mean of the Session Log Reader's durations, else 0. -/
def averageToolResponse (dbg : DebugSummary) (sess : SessionSummary) : Nat :=
  if !dbg.toolTimings.isEmpty then debugAverage dbg
  else if !sess.toolDurations.isEmpty then
    sess.toolDurations.sum / sess.toolDurations.length
  else 0

/-- Sum of the per-tool invocation counts. -/
def totalCalls (tc : List (String × Nat)) : Nat :=
  (tc.map Prod.snd).sum

/-- Modelled from the spec: the SessionReport aggregate root (spec
sections 3 and 6), with the nested report document flattened into one
structure; agent/skill tallies and the success-rate field are outside
the claims and omitted. -/
structure SessionReport where
  session_id : String
  start_time : Option String
  end_time : Option String
  duration_minutes : ℚ
  duration_formatted : String
  messages_user : Nat
  messages_assistant : Nat
  messages_total : Nat
  model : Option String
  tokens : TokenUsage
  cost_usd : ℚ
  tools_total_calls : Nat
  tools_by_type : List (String × Nat)
  files : List String
  slow_operations : List SlowOperation
  errors : List ErrorRecord
  average_tool_response_ms : Nat
  source_session_log : Option String
  source_debug_log : Option String
  source_files_dir : Option String
  generated_at : String
  generator_version : String
deriving Repr, DecidableEq

/-- Modelled from the spec: the Aggregator (spec section 4.4) combining
the readers' outputs: sorted timestamp bounds, duration, message and
token totals, cost via the Cost Model and the primary model name,
pass-through tallies and lists, and the average-tool-response chain. -/
def aggregateFrom (tbl : PricingTable) (sessionId : String)
    (sess : SessionSummary) (dbg : DebugSummary) (files : List String)
    (sessPath dbgPath filesPath : Option String) (generatedAt : String) : SessionReport :=
  let sorted := sortStrings sess.timestamps
  let startB := sorted.head?
  let endB := sorted.getLast?
  let mins := durationMinutes startB endB
  let usage := mkTokenUsage sess.inputTokens sess.outputTokens
    sess.cacheReadTokens sess.cacheCreationTokens
  let primary := pickPrimary sess.models
  { session_id := sessionId
    start_time := startB
    end_time := endB
    duration_minutes := mins
    duration_formatted := formatDuration mins
    messages_user := sess.userMessages
    messages_assistant := sess.assistantMessages
    messages_total := sess.userMessages + sess.assistantMessages
    model := primary
    tokens := usage
    cost_usd := computeCost tbl (primary.getD "") usage
    tools_total_calls := totalCalls sess.toolCounts
    tools_by_type := sess.toolCounts
    files := files
    slow_operations := dbg.slowOps
    errors := dbg.errors
    average_tool_response_ms := averageToolResponse dbg sess
    source_session_log := sessPath
    source_debug_log := dbgPath
    source_files_dir := filesPath
    generated_at := generatedAt
    generator_version := "1.0.0" }

/-- Modelled from the spec: the full pipeline for one session. A source
is `none` when its file or directory does not exist, otherwise its
absolute path paired with its content; provenance records the paths
actually read (spec sections 4.4, 5 and 7). -/
def aggregateSession (tbl : PricingTable) (sessionId : String)
    (slog : Option (String × List (Option LogRecord)))
    (dlog : Option (String × List DebugLine))
    (fdir : Option (String × List String))
    (generatedAt : String) : SessionReport :=
  aggregateFrom tbl sessionId
    (readSessionLog (slog.map Prod.snd))
    (readDebugLog (dlog.map Prod.snd))
    (listSessionFiles (fdir.map Prod.snd))
    (slog.map Prod.fst) (dlog.map Prod.fst) (fdir.map Prod.fst)
    generatedAt

theorem computeCost_zero (tbl : PricingTable) (model : String) :
    computeCost tbl model (mkTokenUsage 0 0 0 0) = 0 := by
  rw [computeCost]
  norm_num [mkTokenUsage, round4]

/-- C2: for a session identifier none of whose three source files
exists, aggregation returns a report with all-zero counters, null
timing bounds, zero duration, empty lists and null provenance. The
pipeline is a total Lean function, so no run can raise. -/
theorem aggregate_missing_sources (tbl : PricingTable) (sessionId generatedAt : String) :
    (aggregateSession tbl sessionId none none none generatedAt).start_time = none ∧
    (aggregateSession tbl sessionId none none none generatedAt).end_time = none ∧
    (aggregateSession tbl sessionId none none none generatedAt).duration_minutes = 0 ∧
    (aggregateSession tbl sessionId none none none generatedAt).messages_user = 0 ∧
    (aggregateSession tbl sessionId none none none generatedAt).messages_assistant = 0 ∧
    (aggregateSession tbl sessionId none none none generatedAt).messages_total = 0 ∧
    (aggregateSession tbl sessionId none none none generatedAt).tokens = mkTokenUsage 0 0 0 0 ∧
    (aggregateSession tbl sessionId none none none generatedAt).cost_usd = 0 ∧
    (aggregateSession tbl sessionId none none none generatedAt).tools_total_calls = 0 ∧
    (aggregateSession tbl sessionId none none none generatedAt).tools_by_type = [] ∧
    (aggregateSession tbl sessionId none none none generatedAt).files = [] ∧
    (aggregateSession tbl sessionId none none none generatedAt).slow_operations = [] ∧
    (aggregateSession tbl sessionId none none none generatedAt).errors = [] ∧
    (aggregateSession tbl sessionId none none none generatedAt).average_tool_response_ms = 0 ∧
    (aggregateSession tbl sessionId none none none generatedAt).source_session_log = none ∧
    (aggregateSession tbl sessionId none none none generatedAt).source_debug_log = none ∧
    (aggregateSession tbl sessionId none none none generatedAt).source_files_dir = none :=
  ⟨rfl, rfl, rfl, rfl, rfl, rfl, rfl, computeCost_zero tbl _, rfl, rfl, rfl, rfl, rfl,
    rfl, rfl, rfl, rfl⟩

/-- Clear the generation timestamp, the one field allowed to differ
between two runs. -/
def eraseGeneratedAt (r : SessionReport) : SessionReport :=
  { r with generated_at := "" }

/-- C3: aggregation is deterministic apart from the generation
timestamp: two runs over unchanged source inputs agree on every field
except `metadata.generated_at`. -/
theorem aggregate_idempotent (tbl : PricingTable) (sessionId : String)
    (slog : Option (String × List (Option LogRecord)))
    (dlog : Option (String × List DebugLine))
    (fdir : Option (String × List String))
    (t₁ t₂ : String) :
    eraseGeneratedAt (aggregateSession tbl sessionId slog dlog fdir t₁) =
      eraseGeneratedAt (aggregateSession tbl sessionId slog dlog fdir t₂) := rfl

/-- C7: the Aggregator's average-tool-response figure equals the Debug
Log Reader's average when that reader captured at least one timing
sample; otherwise the integer-truncated mean of the Session Log
Reader's tool-result durations when that list is non-empty; otherwise
0. -/
theorem averageToolResponse_spec (tbl : PricingTable) (sessionId : String)
    (sess : SessionSummary) (dbg : DebugSummary) (files : List String)
    (p₁ p₂ p₃ : Option String) (generatedAt : String) :
    (dbg.toolTimings ≠ [] →
      (aggregateFrom tbl sessionId sess dbg files p₁ p₂ p₃
        generatedAt).average_tool_response_ms = debugAverage dbg) ∧
    (dbg.toolTimings = [] → sess.toolDurations ≠ [] →
      (aggregateFrom tbl sessionId sess dbg files p₁ p₂ p₃
        generatedAt).average_tool_response_ms =
        sess.toolDurations.sum / sess.toolDurations.length) ∧
    (dbg.toolTimings = [] → sess.toolDurations = [] →
      (aggregateFrom tbl sessionId sess dbg files p₁ p₂ p₃
        generatedAt).average_tool_response_ms = 0) := by
  have hfield : (aggregateFrom tbl sessionId sess dbg files p₁ p₂ p₃
      generatedAt).average_tool_response_ms = averageToolResponse dbg sess := rfl
  refine ⟨?_, ?_, ?_⟩
  · intro h
    have hie : dbg.toolTimings.isEmpty = false := by
      cases hl : dbg.toolTimings with
      | nil => exact absurd hl h
      | cons x xs => rfl
    rw [hfield, averageToolResponse, hie]
    rfl
  · intro h h2
    have hie : dbg.toolTimings.isEmpty = true := by rw [h]; rfl
    have hie2 : sess.toolDurations.isEmpty = false := by
      cases hl : sess.toolDurations with
      | nil => exact absurd hl h2
      | cons x xs => rfl
    rw [hfield, averageToolResponse, hie, hie2]
    rfl
  · intro h h2
    have hie : dbg.toolTimings.isEmpty = true := by rw [h]; rfl
    have hie2 : sess.toolDurations.isEmpty = true := by rw [h2]; rfl
    rw [hfield, averageToolResponse, hie, hie2]
    rfl

/-- Witness for `averageToolResponse_spec`: with debug samples present
the debug average wins. -/
theorem averageToolResponse_spec_witness :
    (aggregateFrom ⟨[], ⟨1, 1, 1, 1⟩⟩ "s" emptySession ⟨[], [], [100, 201]⟩ []
      none none none "t").average_tool_response_ms = debugAverage ⟨[], [], [100, 201]⟩ :=
  (averageToolResponse_spec ⟨[], ⟨1, 1, 1, 1⟩⟩ "s" emptySession ⟨[], [], [100, 201]⟩ []
    none none none "t").1 (by decide)

/-! ### Template Renderer (spec section 4.6), modelled from the spec -/

/-- Modelled from the spec: a JSON-like value of the Session Report
document, over which the Template Renderer resolves dot-paths. -/
inductive Value where
  | null
  | num (q : ℚ)
  | str (s : String)
  | list (xs : List Value)
  | obj (fields : List (String × Value))
deriving Repr

/-- First field with the given key in a mapping. -/
def getField (key : String) : List (String × Value) → Option Value
  | [] => none
  | (k, v) :: rest => if k == key then some v else getField key rest

/-- Modelled from the spec: dot-walk resolution; a missing key or a
non-mapping intermediate resolves to `null`, never an error. -/
def resolvePath : Value → List String → Value
  | v, [] => v
  | Value.obj fs, k :: ks =>
    match getField k fs with
    | some v => resolvePath v ks
    | none => Value.null
  | _, _ :: _ => Value.null

/-- Modelled from the spec: truthiness for conditional blocks (spec
section 4.6): non-null, non-zero-length sequence/mapping, and any other
non-falsy scalar. -/
def truthy : Value → Bool
  | Value.null => false
  | Value.num q => if q = 0 then false else true
  | Value.str s => !s.isEmpty
  | Value.list xs => !xs.isEmpty
  | Value.obj fs => !fs.isEmpty

/-- Modelled from the spec: the three formatting filters (spec section 4.6). -/
inductive TFilter where
  | number
  | percent
  | length
deriving Repr, DecidableEq

/-- Digit grouping: a comma after every third digit, processing the
reversed digit list. -/
def groupRev : List Char → Nat → List Char
  | [], _ => []
  | c :: cs, k => if k = 3 then ',' :: c :: groupRev cs 1 else c :: groupRev cs (k + 1)

/-- An integer with thousands separators. -/
def formatThousandsInt (z : Int) : String :=
  (if z < 0 then "-" else "") ++
    String.mk ((groupRev (toString z.natAbs).data.reverse 0).reverse)

/-- Modelled from the spec: the `number` filter — thousands-separated,
two decimals if the value is non-integral. -/
def formatNumber (q : ℚ) : String :=
  if q.den = 1 then formatThousandsInt q.num
  else
    let r : Int := round (q * 100)
    let ip : Int := r / 100
    let fp : Nat := (r % 100).natAbs
    formatThousandsInt ip ++ "." ++ (if fp < 10 then "0" else "") ++ toString fp

/-- Modelled from the spec: the `percent` filter — multiply by 100, one
decimal, trailing percent sign. -/
def formatPercent (q : ℚ) : String :=
  let r : Int := round (q * 100 * 10)
  let ip : Int := r / 10
  let fp : Nat := (r % 10).natAbs
  toString ip ++ "." ++ toString fp ++ "%"

/-- Modelled from the spec: stringification of a resolved value; a null
resolution substitutes the empty string (spec section 4.6). -/
def stringify : Value → String
  | Value.null => ""
  | Value.num q => if q.den = 1 then toString q.num else toString q.num ++ "/" ++ toString q.den
  | Value.str s => s
  | Value.list _ => ""
  | Value.obj _ => ""

/-- Modelled from the spec: the `length` filter counts elements of a
sequence or mapping, anything else is 0; the other filters format
numbers and pass non-numbers through stringification. -/
def applyFilter : TFilter → Value → String
  | TFilter.length, Value.list xs => toString xs.length
  | TFilter.length, Value.obj fs => toString fs.length
  | TFilter.length, _ => "0"
  | TFilter.number, Value.num q => formatNumber q
  | TFilter.number, v => stringify v
  | TFilter.percent, Value.num q => formatPercent q
  | TFilter.percent, v => stringify v

/-- Modelled from the spec: a parsed template. The regex-driven
original rewrites text pass by pass; the observable expansion semantics
of section 4.6 is modelled on the block tree (text, `{{path|filter}}`
variables, `{{#each}}` and `{{#if}}` blocks). -/
inductive TNode where
  | text (s : String)
  | var (path : List String) (filt : Option TFilter)
  | eachBlock (path : List String) (body : List TNode)
  | ifBlock (path : List String) (body : List TNode)
deriving Repr

/-- Modelled from the spec: the bindings visible inside one iteration
over a sequence element: `this`, plus the element's top-level fields if
it is a mapping. -/
def bindingsFor (v : Value) : List (String × Value) :=
  match v with
  | Value.obj fs => ("this", v) :: fs
  | _ => [("this", v)]

/-- Modelled from the spec: variable resolution — loop bindings first,
then a dot-walk from the report root. -/
def resolveVar (root : Value) (binds : List (String × Value)) : List String → Value
  | [] => Value.null
  | k :: ks =>
    match getField k binds with
    | some v => resolvePath v ks
    | none => resolvePath root (k :: ks)

/-- Modelled from the spec: the Template Renderer's expansion (spec
section 4.6): a loop block repeats its body per entry of a mapping
(binding `@key`/`this`) or per element of a sequence (binding `this`
and mapping fields), any other resolved value expanding to nothing; a
conditional block is kept exactly when its path is truthy; a variable
substitutes its (optionally filtered) stringified resolution. -/
def renderNodes (root : Value) : List (String × Value) → List TNode → String
  | _, [] => ""
  | binds, TNode.text s :: rest => s ++ renderNodes root binds rest
  | binds, TNode.var p f :: rest =>
    (match f with
     | none => stringify (resolveVar root binds p)
     | some filt => applyFilter filt (resolveVar root binds p)) ++
      renderNodes root binds rest
  | binds, TNode.eachBlock p body :: rest =>
    (match resolveVar root binds p with
     | Value.list xs => String.join (xs.map (fun v => renderNodes root (bindingsFor v) body))
     | Value.obj fs => String.join (fs.map (fun kv =>
         renderNodes root [("@key", Value.str kv.1), ("this", kv.2)] body))
     | _ => "") ++ renderNodes root binds rest
  | binds, TNode.ifBlock p body :: rest =>
    (if truthy (resolveVar root binds p) then renderNodes root binds body else "") ++
      renderNodes root binds rest
termination_by _ ns => sizeOf ns

/-- C6: a loop block over an empty sequence expands to the empty
string; a conditional block whose path resolves to a falsy value (such
as the number 0) is dropped entirely; a variable whose dot-path does
not resolve substitutes the empty string. -/
theorem renderer_empty_cases (root : Value) (p : List String) (body : List TNode) :
    (resolveVar root [] p = Value.list [] →
      renderNodes root [] [TNode.eachBlock p body] = "") ∧
    (truthy (resolveVar root [] p) = false →
      renderNodes root [] [TNode.ifBlock p body] = "") ∧
    (resolveVar root [] p = Value.null →
      renderNodes root [] [TNode.var p none] = "") := by
  refine ⟨?_, ?_, ?_⟩
  · intro h
    rw [renderNodes, h, renderNodes]
    rfl
  · intro h
    rw [renderNodes, h, renderNodes]
    rfl
  · intro h
    rw [renderNodes, h, renderNodes]
    rfl

/-- Witness for `renderer_empty_cases` at concrete reports and
templates. -/
theorem renderer_empty_cases_witness :
    renderNodes (Value.obj [("empty_list", Value.list [])]) []
      [TNode.eachBlock ["empty_list"] [TNode.text "X"]] = "" ∧
    renderNodes (Value.obj [("zero", Value.num 0)]) []
      [TNode.ifBlock ["zero"] [TNode.text "X"]] = "" ∧
    renderNodes (Value.obj [("a", Value.num 1)]) []
      [TNode.var ["missing", "path"] none] = "" :=
  ⟨(renderer_empty_cases (Value.obj [("empty_list", Value.list [])])
      ["empty_list"] [TNode.text "X"]).1 rfl,
   (renderer_empty_cases (Value.obj [("zero", Value.num 0)])
      ["zero"] [TNode.text "X"]).2.1 rfl,
   (renderer_empty_cases (Value.obj [("a", Value.num 1)])
      ["missing", "path"] []).2.2 rfl⟩
